import Mathlib

/-!
# pyenki: the script binding of the Enki simulator (`python/enki.cpp`)

A shallow embedding of the binding layer: the Color component accessors, the
Vector converters, the e-puck control-step dispatch, the viewer camera set-up,
the headless `run` loop, the lifetime policy of `World.addObject` and the table
of class registrations of the module.

Conventions of the embedding:

* a C `double` is modelled by the rational number it denotes (`Double`); only
  finite values are covered and the sign of zero is not tracked.  Operations
  that round (`(double)` of a C `long`, the division in `1./30.`) go through
  `Double.round`, round-to-nearest-even on 53 significant bits;
* a script object is a value of `PyObject`, of an interpreter with the two
  integer types `int` (a C `long`, 64 bits) and `long` (unbounded), the one
  whose C interface has `PyInt_Check`; a null `PyObject*` is `none`;
* a C++ function that mutates an argument and may throw returns the outcome
  together with the state the argument is left in.
-/

namespace Enki

/-! ## Numbers -/

/-- The value of a finite C `double`. -/
abbrev Double := ℚ

/-- Round-to-nearest, ties-to-even, to a 53-bit significand (binary64 in its
normal range): the rounding applied whenever a result is stored in a `double`. -/
def Double.round (q : ℚ) : Double :=
  if q = 0 then 0 else
    let e : ℤ := Int.log 2 |q|
    let ulp : ℚ := (2 : ℚ) ^ (e - 52)
    let t : ℚ := |q| / ulp
    let m : ℤ := ⌊t⌋
    let r : ℚ := t - m
    let n : ℤ :=
      if r < 1 / 2 then m
      else if 1 / 2 < r then m + 1
      else if m % 2 = 0 then m else m + 1
    (if q < 0 then -1 else 1) * (n * ulp)

/-- The C expression `a / b` on doubles. -/
def Double.div (a b : Double) : Double := Double.round (a / b)

/-- The C conversion `(double) v` of a `long`. -/
def Double.ofLong (v : ℤ) : Double := Double.round v

/-- A C `long` (64 bits): the machine integer an `int` object holds. -/
structure CLong where
  val : ℤ
  lo : -2 ^ 63 ≤ val
  hi : val < 2 ^ 63

/-- The bound 2^1024 that the magnitude of a finite double stays below. -/
def Double.overflow : ℚ := 2 ^ 1024

/-- The call `PyLong_AsDouble`: the double nearest to an unbounded integer,
and no value (OverflowError) when that is beyond the range of a double. -/
def PyLong_AsDouble (v : ℤ) : Option Double :=
  if |Double.round v| < Double.overflow then some (Double.round v) else none

/-! ## Script objects -/

/-- The script objects the binding distinguishes. `PyInt` is the interpreter's
`int` type (the objects `PyInt_Check` accepts, holding a C `long`), `PyLong`
its `long` type of unbounded integers (every integer outside the range of a C
`long` is one), `PyFloat` its `float` type, `PyString` a `str` given by its
characters (one byte each). -/
inductive PyObject where
  | PyInt (ob_ival : CLong)
  | PyLong (v : ℤ)
  | PyFloat (ob_fval : Double)
  | PyString (s : String)
  | PyNone
  | PyTuple (ob_item : List PyObject)
  | PyList (ob_item : List PyObject)

/-- Exceptions that cross the boundary. -/
inductive PyErr where
  | TypeError
  | IndexError
  | OverflowError
  | runtime_error (what : String)
  deriving DecidableEq, Repr

/-- The type test `PyFloat_Check`. -/
def PyFloat_Check : PyObject → Bool
  | .PyFloat _ => true
  | _ => false

/-- The type test `PyInt_Check`. -/
def PyInt_Check : PyObject → Bool
  | .PyInt _ => true
  | _ => false

/-- The type test `PyTuple_Check`. -/
def PyTuple_Check : PyObject → Bool
  | .PyTuple _ => true
  | _ => false

/-- The type test `PyList_Check`. -/
def PyList_Check : PyObject → Bool
  | .PyList _ => true
  | _ => false

/-- A `boost::python::tuple` argument: the items of a script tuple. -/
abbrev tuple := List PyObject

/-- The function `len` of boost::python on a tuple. -/
def len (values : tuple) : ℤ := values.length

/-- Indexing `values[i]` of a boost::python tuple; out of range raises IndexError. -/
def tuple.getitem (values : tuple) (i : ℕ) : Except PyErr PyObject :=
  match values.get? i with
  | some o => .ok o
  | none => .error .IndexError

/-- The conversion `extract<double>(o)`: the built-in rvalue converter to
`double` accepts `int`, `long` and `float` objects; a `long` beyond the range of
a double throws (OverflowError), conversion of anything else throws
(TypeError). -/
def extract_double : PyObject → Except PyErr Double
  | .PyFloat v => .ok v
  | .PyInt v => .ok (Double.ofLong v.val)
  | .PyLong v =>
    match PyLong_AsDouble v with
    | some d => .ok d
    | none => .error .OverflowError
  | _ => .error .TypeError

/-- The number a script object denotes: the value of an `int`, a `long` or a
`float`; other objects denote none. -/
def PyObject.number? : PyObject → Option ℚ
  | .PyInt v => some v.val
  | .PyLong v => some v
  | .PyFloat v => some v
  | _ => none

/-- The script numbers a `double` holds exactly: every float, and every
integer (`int` or `long`) that is its own nearest double, within the range of
a double. -/
def PyObject.exact : PyObject → Prop
  | .PyFloat _ => True
  | .PyInt v => Double.round v.val = v.val
  | .PyLong v => Double.round v = v ∧ |(v : ℚ)| < Double.overflow
  | _ => False

instance (o : PyObject) : Decidable o.exact := by
  cases o <;> unfold PyObject.exact <;> infer_instance

/-! ## Color components (lines 15-33) -/

/-- An `Enki::Color`: the array `components[4]`, field `ci` being `components[i]`. -/
structure Color where
  c0 : Double
  c1 : Double
  c2 : Double
  c3 : Double
  deriving DecidableEq, Repr

/-- Translation of `getColorComponents`: `make_tuple` of the four components. -/
def getColorComponents (color : Color) : tuple :=
  [.PyFloat color.c0, .PyFloat color.c1, .PyFloat color.c2, .PyFloat color.c3]

/-- Translation of `setColorComponents`. The result pairs the outcome with the
state in which `color` is left, also when the function throws. -/
def setColorComponents (color : Color) (values : tuple) : Except PyErr Unit × Color :=
  if len values ≠ 4 then
    (.error (.runtime_error "Tuple used to set components must be of length 4"), color)
  else
    match (tuple.getitem values 0).bind extract_double with
    | .error e => (.error e, color)
    | .ok v0 =>
      let color := { color with c0 := v0 }
      match (tuple.getitem values 1).bind extract_double with
      | .error e => (.error e, color)
      | .ok v1 =>
        let color := { color with c1 := v1 }
        match (tuple.getitem values 2).bind extract_double with
        | .error e => (.error e, color)
        | .ok v2 =>
          let color := { color with c2 := v2 }
          match (tuple.getitem values 3).bind extract_double with
          | .error e => (.error e, color)
          | .ok v3 =>
            let color := { color with c3 := v3 }
            (.ok (), color)

/-! ## Vector conversion (lines 44-117) -/

/-- An `Enki::Vector`. -/
structure Vector where
  x : Double
  y : Double
  deriving DecidableEq, Repr

/-- Translation of `Vector_to_python_tuple::convert`: `make_tuple(value.x, value.y)`. -/
def Vector_to_python_tuple.convert (value : Vector) : PyObject :=
  .PyTuple [.PyFloat value.x, .PyFloat value.y]

/-- The call `PyTuple_Size`: the length of a tuple, `-1` on anything else. -/
def PyTuple_Size : PyObject → ℤ
  | .PyTuple ob_item => ob_item.length
  | _ => -1

/-- The call `PyTuple_GetItem`: null when the object is not a tuple or the
index is out of range. -/
def PyTuple_GetItem : PyObject → ℕ → Option PyObject
  | .PyTuple ob_item, i => ob_item.get? i
  | _, _ => none

/-- The call `PyObject_Length`: the length of a sequence, `-1` (with TypeError
set) on an object that has none. -/
def PyObject_Length : PyObject → ℤ
  | .PyTuple ob_item => ob_item.length
  | .PyList ob_item => ob_item.length
  | .PyString s => s.length
  | _ => -1

/-- The call `PyList_GetItem`: null (bad internal call) when the object is not
a list, null (IndexError) when the index is out of range. -/
def PyList_GetItem : PyObject → ℕ → Option PyObject
  | .PyList ob_item, i => ob_item.get? i
  | _, _ => none

/-- The call `PyFloat_AsDouble` on a possibly null pointer: the value of a
float, the conversion of an int or of a long, and `-1.0` with an error set
otherwise. -/
def PyFloat_AsDouble : Option PyObject → Double
  | some (.PyFloat v) => v
  | some (.PyInt v) => Double.ofLong v.val
  | some (.PyLong v) => (PyLong_AsDouble v).getD (-1)
  | _ => -1

/-- A failed `assert`: the process aborts. -/
inductive Abort where
  | assertion (expr : String)
  deriving DecidableEq, Repr

/-- Translation of `Vector_from_python::convertible`. `ok none` is the null
return (no match), `ok (some p)` the return of `objPtr`, `error` a failed
`assert`. -/
def Vector_from_python.convertible (objPtr : PyObject) : Except Abort (Option PyObject) :=
  if PyTuple_Check objPtr then
    let l := PyTuple_Size objPtr
    if l ≠ 2 then .ok none
    else
      match PyTuple_GetItem objPtr 0 with
      | none => .error (.assertion "item0")
      | some item0 =>
        if !(PyFloat_Check item0 || PyInt_Check item0) then .ok none
        else
          match PyTuple_GetItem objPtr 1 with
          | none => .error (.assertion "item1")
          | some item1 =>
            if !(PyFloat_Check item1 || PyInt_Check item1) then .ok none
            else .ok (some objPtr)
  else
    let l := PyObject_Length objPtr
    if l ≠ 2 then .ok none
    else
      match PyList_GetItem objPtr 0 with
      | none => .error (.assertion "item0")
      | some item0 =>
        if !(PyFloat_Check item0 || PyInt_Check item0) then .ok none
        else
          match PyList_GetItem objPtr 1 with
          | none => .error (.assertion "item1")
          | some item1 =>
            if !(PyFloat_Check item1 || PyInt_Check item1) then .ok none
            else .ok (some objPtr)

/-- Translation of `Vector_from_python::construct`: the Vector built in the
converter's storage. -/
def Vector_from_python.construct (objPtr : PyObject) : Vector :=
  if PyTuple_Check objPtr then
    let x := PyFloat_AsDouble (PyTuple_GetItem objPtr 0)
    let y := PyFloat_AsDouble (PyTuple_GetItem objPtr 1)
    Vector.mk x y
  else
    let x := PyFloat_AsDouble (PyList_GetItem objPtr 0)
    let y := PyFloat_AsDouble (PyList_GetItem objPtr 1)
    Vector.mk x y

/-- The converter registered by the constructor of `Vector_from_python`
(`registry::push_back(&convertible, &construct, type_id<Vector>())`), as the
conversion machinery runs it: `construct` on what `convertible` returned, and a
TypeError when `convertible` returned null. -/
def Vector_from_python (objPtr : PyObject) : Except Abort (Except PyErr Vector) :=
  match Vector_from_python.convertible objPtr with
  | .error a => .error a
  | .ok none => .ok (.error .TypeError)
  | .ok (some p) => .ok (.ok (Vector_from_python.construct p))

/-! ## Control-step dispatch (lines 147-153) -/

/-- Translation of `EPuckWrap::controlStep` over a robot state `S`.
`EPuck_controlStep` is the native `EPuck::controlStep`, `get_override` the
lookup of a script-level method by name. -/
def EPuckWrap.controlStep {S : Type} (EPuck_controlStep : Double → S → S)
    (get_override : String → Option (Double → S → S)) (dt : Double) (self : S) : S :=
  let self :=
    match get_override "controlStep" with
    | some controlStep => controlStep dt self
    | none => self
  EPuck_controlStep dt self

/-- The routines a control step may run. -/
inductive Call where
  | script (dt : Double)
  | native (dt : Double)
  deriving DecidableEq, Repr

/-- A routine instrumented to record its own invocation in a call log. -/
def logged {S : Type} (c : Call) (g : S → S) (p : S × List Call) : S × List Call :=
  (g p.1, p.2 ++ [c])

/-! ## Viewer camera (lines 193-225) -/

/-- Modelled from the spec: the camera position of the viewer widget
(`viewer/Viewer.h` is not under src/), a point whose coordinates are written
with `setX` and `setY`. -/
structure CameraPos where
  x : Double
  y : Double
  deriving DecidableEq, Repr

/-- The setter `setX` of the camera position. -/
def CameraPos.setX (p : CameraPos) (v : Double) : CameraPos := { p with x := v }

/-- The setter `setY` of the camera position. -/
def CameraPos.setY (p : CameraPos) (v : Double) : CameraPos := { p with y := v }

/-- Modelled from the spec: the members of `ViewerWidget` that the constructor
of `PythonViewer` writes (`viewer/Viewer.h` is not under src/). -/
structure ViewerWidget where
  pos : CameraPos
  altitude : Double
  yaw : Double
  pitch : Double
  managedObjectsAliases : List (String × String)
  deriving DecidableEq, Repr

/-- Translation of the constructor `PythonViewer::PythonViewer`; `base` is the
widget as the base-class constructor `ViewerWidget(&world)` leaves it. -/
def PythonViewer (base : ViewerWidget) (camPos : Vector)
    (camAltitude camYaw camPitch : Double) : ViewerWidget :=
  let self := base
  let self := { self with pos := self.pos.setX (-camPos.x) }
  let self := { self with pos := self.pos.setY (-camPos.y) }
  let self := { self with altitude := camAltitude }
  let self := { self with yaw := -camYaw }
  let self := { self with pitch := -camPitch }
  { self with managedObjectsAliases :=
      ("EPuckWrap", "EPuck") :: self.managedObjectsAliases.filter (fun a => a.1 ≠ "EPuckWrap") }

/-- Translation of `runInViewer` up to the construction of the viewer (the
event loop that follows is not modelled). An argument left out by the caller is
`none` and takes the default of the C++ signature. -/
def runInViewer {W : Type} (ViewerWidget_new : W → ViewerWidget) (world : W)
    (camPos : Option Vector) (camAltitude camYaw camPitch : Option Double) : ViewerWidget :=
  PythonViewer (ViewerWidget_new world) (camPos.getD (Vector.mk 0 0))
    (camAltitude.getD 0) (camYaw.getD 0) (camPitch.getD 0)

/-! ## Headless run (lines 227-231) -/

/-- The loop of `run` from counter value `i`. The counter is an `unsigned`
below `steps`, so its increment never wraps. -/
def run.loop {W : Type} (World_step : Double → ℕ → W → W) (steps : ℕ) (i : ℕ) (world : W) : W :=
  if i < steps then
    run.loop World_step steps (i + 1) (World_step (Double.div 1 30) 3 world)
  else
    world
termination_by steps - i

/-- Translation of `run`; `World_step` is the native `World::step`. -/
def run {W : Type} (World_step : Double → ℕ → W → W) (world : W) (steps : ℕ) : W :=
  run.loop World_step steps 0 world

/-! ## Lifetime policy of `World.addObject` (lines 243, 360) -/

/-- A script-side object handle. -/
abbrev Handle := ℕ

/-- The interpreter's lifetime state: the handles held by script variables and
the life-support links installed by call policies, `(nurse, patient)` keeping
`patient` alive while `nurse` is alive. In the non-owning mode the module sets
(`World::takeObjectOwnership(false)`) the native side frees no object, so these
alone decide lifetimes. -/
structure Interp where
  roots : List Handle
  links : List (Handle × Handle)
  deriving DecidableEq, Repr

/-- One round of life support: the patients of the links whose nurse is alive
are alive too. -/
def keepAlive (links : List (Handle × Handle)) (live : List Handle) : List Handle :=
  live ++ (links.filter (fun l => decide (l.1 ∈ live))).map Prod.snd

/-- The handles of the objects that are alive: those held by script variables
and everything life support keeps, directly or through a chain of links (as
many rounds as there are links reach all of them). -/
def Interp.live (h : Interp) : List Handle :=
  (keepAlive h.links)^[h.links.length] h.roots

/-- An object is alive (not destroyed) when a script variable holds it or a
living nurse keeps it. -/
def Alive (h : Interp) (x : Handle) : Prop := x ∈ h.live

instance (h : Interp) (x : Handle) : Decidable (Alive h x) := by
  unfold Alive; infer_instance

/-- The call policy `with_custodian_and_ward<custodian, ward>` of boost::python:
the argument numbered `ward` is kept alive as long as the argument numbered
`custodian` (arguments are numbered from 1). -/
def with_custodian_and_ward (custodian ward : ℕ) (args : List Handle) (h : Interp) : Interp :=
  match args.get? (custodian - 1), args.get? (ward - 1) with
  | some nurse, some patient => { h with links := (nurse, patient) :: h.links }
  | _, _ => h

/-- The binding `.def("addObject", &World::addObject, with_custodian_and_ward<1,2>())`
on the lifetime state: argument 1 is the World, argument 2 the object. -/
def World.addObject (world obj : Handle) (h : Interp) : Interp :=
  with_custodian_and_ward 1 2 [world, obj] h

/-! ## Class registrations (lines 236-368) -/

/-- The `class_<T>(name)` registrations of `BOOST_PYTHON_MODULE(pyenki)`, in
source order, as (native class, script-level name). -/
def pyenki.classes : List (String × String) :=
  [ ("Color", "Color"),
    ("Texture", "Texture"),
    ("Textures", "Textures"),
    ("PhysicalObject", "PhysicalObject"),
    ("CircularPhysicalObject", "CircularObject"),
    ("RectangularPhysicalObject", "RectangularObject"),
    ("Robot", "PhysicalObject"),
    ("DifferentialWheeled", "DifferentialWheeled"),
    ("EPuckWrap", "EPuck"),
    ("World", "World") ]

/-- Registering a class sets the attribute `name` of the module scope,
replacing a binding already there. -/
def setattr (scope : List (String × String)) (name : String) (cls : String) :
    List (String × String) :=
  (name, cls) :: scope.filter (fun b => b.1 ≠ name)

/-- The module namespace (script-level name, native class) after all
registrations have run. -/
def pyenki.module : List (String × String) :=
  pyenki.classes.foldl (fun scope c => setattr scope c.2 c.1) []

/-- Attribute lookup in a module namespace. -/
def getattr (scope : List (String × String)) (name : String) : Option String :=
  (scope.find? (fun b => b.1 = name)).map Prod.snd


/-! ## Theorems -/

/-- A rational that is a whole multiple of its unit in the last place is left
unchanged by rounding. -/
theorem Double.round_of_multiple (q : ℚ) (k : ℤ)
    (hk : |q| = k * (2 : ℚ) ^ (Int.log 2 |q| - 52)) : Double.round q = q := by
  by_cases h0 : q = 0
  · simp [Double.round, h0]
  · have hu : ((2 : ℚ) ^ (Int.log 2 |q| - 52)) ≠ 0 := zpow_ne_zero _ (by norm_num)
    have ht : |q| / (2 : ℚ) ^ (Int.log 2 |q| - 52) = k := by
      rw [div_eq_iff hu]; exact hk
    have key : Double.round q = (if q < 0 then -1 else 1) * |q| := by
      unfold Double.round
      rw [if_neg h0]
      have hhalf : (0 : ℚ) < 1 / 2 := by norm_num
      simp only [ht, Int.floor_intCast, sub_self, hhalf, if_true]
      rw [← hk]
    rw [key]
    split_ifs with hneg
    · rw [abs_of_neg hneg]; ring
    · rw [abs_of_nonneg (not_lt.mp hneg)]; ring

/-- The conversion of a `long` to `double` is exact on the integers of
magnitude at most 2^53. -/
theorem Double.ofLong_exact (v : ℤ) (h : |v| ≤ 2 ^ 53) : Double.ofLong v = v := by
  unfold Double.ofLong
  by_cases h0 : v = 0
  · simp [Double.round, h0]
  · have ha1 : (1 : ℚ) ≤ |(v : ℚ)| := by
      have : (1 : ℤ) ≤ |v| := Int.one_le_abs h0
      exact_mod_cast this
    have ha53 : |(v : ℚ)| ≤ 2 ^ 53 := by exact_mod_cast h
    have hpos : (0 : ℚ) < |(v : ℚ)| := lt_of_lt_of_le one_pos ha1
    have he53 : Int.log 2 |(v : ℚ)| ≤ 53 := by
      have h1 : |(v : ℚ)| ≤ ((2 : ℕ) : ℚ) ^ (53 : ℤ) := by
        norm_num
        exact_mod_cast h
      have h2 := Int.log_mono_right (b := 2) hpos h1
      rwa [Int.log_zpow (by norm_num)] at h2
    have hle : ((2 : ℕ) : ℚ) ^ Int.log 2 |(v : ℚ)| ≤ |(v : ℚ)| :=
      Int.zpow_log_le_self (by norm_num) hpos
    rcases lt_or_eq_of_le he53 with hlt | heq
    · obtain ⟨j, hj⟩ : ∃ j : ℕ, Int.log 2 |(v : ℚ)| - 52 = -(j : ℤ) :=
        ⟨(52 - Int.log 2 |(v : ℚ)|).toNat, by omega⟩
      apply Double.round_of_multiple (v : ℚ) (|v| * 2 ^ j)
      rw [hj, zpow_neg, zpow_natCast]
      push_cast
      field_simp
    · apply Double.round_of_multiple (v : ℚ) (2 ^ 52)
      have h2 : (2 : ℚ) ^ (53 : ℤ) ≤ |(v : ℚ)| := by
        rw [heq] at hle
        exact_mod_cast hle
      have h3 : |(v : ℚ)| = 2 ^ 53 := le_antisymm ha53 (by exact_mod_cast h2)
      rw [heq, h3]
      norm_num

/-- The time step `1./30.` of `run` is the double 4803839602528529 / 2^57. -/
theorem Double.div_one_thirty : Double.div 1 30 = 4803839602528529 / 2 ^ 57 := by
  have hlog : Int.log 2 |(1 / 30 : ℚ)| = -5 := by
    have hpos : (0 : ℚ) < |(1 / 30 : ℚ)| := by norm_num
    have h1 : Int.log 2 |(1 / 30 : ℚ)| < -4 :=
      (Int.lt_zpow_iff_log_lt (b := 2) (by norm_num) hpos).1 (by norm_num [abs_of_pos])
    have h2 : -5 ≤ Int.log 2 |(1 / 30 : ℚ)| :=
      (Int.zpow_le_iff_le_log (b := 2) (by norm_num) hpos).1 (by norm_num [abs_of_pos])
    omega
  unfold Double.div Double.round
  rw [if_neg (by norm_num)]
  simp only [hlog]
  have hfl : ⌊|(1 / 30 : ℚ)| / (2 : ℚ) ^ ((-5 : ℤ) - 52)⌋ = 4803839602528529 := by
    rw [Int.floor_eq_iff]
    constructor <;> norm_num [abs_of_pos]
  simp only [hfl]
  norm_num [abs_of_pos]

/-- The integer 2^53 + 1 has no double of its own: it rounds to 2^53. -/
theorem Double.round_two_pow_53_succ : Double.round (2 ^ 53 + 1) = 2 ^ 53 := by
  have hlog : Int.log 2 |(2 ^ 53 + 1 : ℚ)| = 53 := by
    have hpos : (0 : ℚ) < |(2 ^ 53 + 1 : ℚ)| := by norm_num
    have h1 : Int.log 2 |(2 ^ 53 + 1 : ℚ)| < 54 :=
      (Int.lt_zpow_iff_log_lt (b := 2) (by norm_num) hpos).1 (by norm_num [abs_of_pos])
    have h2 : 53 ≤ Int.log 2 |(2 ^ 53 + 1 : ℚ)| :=
      (Int.zpow_le_iff_le_log (b := 2) (by norm_num) hpos).1 (by norm_num [abs_of_pos])
    omega
  unfold Double.round
  rw [if_neg (by norm_num)]
  simp only [hlog]
  have hfl : ⌊|(2 ^ 53 + 1 : ℚ)| / (2 : ℚ) ^ ((53 : ℤ) - 52)⌋ = 2 ^ 52 := by
    rw [Int.floor_eq_iff]
    constructor <;> norm_num [abs_of_pos]
  simp only [hfl]
  norm_num [abs_of_pos]

/-- An `int` of magnitude at most 2^53 is held exactly by a double. -/
theorem PyObject.exact_int_of_abs_le (n : CLong) (h : |n.val| ≤ 2 ^ 53) :
    (PyObject.PyInt n).exact :=
  Double.ofLong_exact n.val h

/-- A `long` of magnitude at most 2^53 is held exactly by a double. -/
theorem PyObject.exact_long_of_abs_le (n : ℤ) (h : |n| ≤ 2 ^ 53) :
    (PyObject.PyLong n).exact := by
  refine ⟨Double.ofLong_exact n h, ?_⟩
  have h1 : |(n : ℚ)| ≤ 2 ^ 53 := by exact_mod_cast h
  have h2 : (2 : ℚ) ^ 53 < Double.overflow := by
    unfold Double.overflow
    exact pow_lt_pow_right₀ (by norm_num) (by norm_num)
  exact lt_of_le_of_lt h1 h2

/-- On a number a double holds exactly `extract<double>` succeeds with the
value of that number. -/
theorem extract_double_of_exact (o : PyObject) (h : o.exact) :
    ∃ v, extract_double o = .ok v ∧ o.number? = some v := by
  cases o with
  | PyFloat v => exact ⟨v, rfl, rfl⟩
  | PyInt n =>
    have h1 : Double.round n.val = n.val := h
    refine ⟨n.val, ?_, rfl⟩
    show Except.ok (Double.ofLong n.val) = Except.ok (n.val : ℚ)
    unfold Double.ofLong
    rw [h1]
  | PyLong n =>
    obtain ⟨h1, h2⟩ : Double.round n = n ∧ |(n : ℚ)| < Double.overflow := h
    refine ⟨n, ?_, rfl⟩
    have h3 : PyLong_AsDouble n = some (n : ℚ) := by
      unfold PyLong_AsDouble
      rw [h1]
      exact if_pos h2
    show (match PyLong_AsDouble n with
      | some d => Except.ok d
      | none => Except.error PyErr.OverflowError) = Except.ok (n : ℚ)
    rw [h3]
  | PyString s => exact absurd h (by simp [PyObject.exact])
  | PyNone => exact absurd h (by simp [PyObject.exact])
  | PyTuple l => exact absurd h (by simp [PyObject.exact])
  | PyList l => exact absurd h (by simp [PyObject.exact])

/-- C5: for every Color and every tuple whose length is not 4,
`setColorComponents` throws (the runtime error of line 28) and leaves all four
components of the Color as they were. -/
theorem setColorComponents_wrong_length (color : Color) (values : tuple)
    (h : values.length ≠ 4) :
    setColorComponents color values =
      (.error (.runtime_error "Tuple used to set components must be of length 4"), color) := by
  have hl : len values ≠ 4 := by
    unfold len
    exact_mod_cast h
  simp [setColorComponents, hl]

/-- Witness of C5 on a 3-tuple. -/
theorem setColorComponents_wrong_length_witness :
    ([PyObject.PyFloat (1 / 2), PyObject.PyInt (CLong.mk 1 (by decide) (by decide)),
      PyObject.PyFloat (1 / 4)] : tuple).length ≠ 4 ∧
    setColorComponents (Color.mk 0 0 0 1)
        [PyObject.PyFloat (1 / 2), PyObject.PyInt (CLong.mk 1 (by decide) (by decide)),
          PyObject.PyFloat (1 / 4)] =
      (.error (.runtime_error "Tuple used to set components must be of length 4"),
        Color.mk 0 0 0 1) :=
  ⟨by decide, setColorComponents_wrong_length _ _ (by decide)⟩

/-- With four elements that `extract<double>` converts, `setColorComponents`
succeeds and writes the four converted values to `components[0..3]` in order. -/
theorem setColorComponents_ok (color : Color) (r g b a : PyObject) (vr vg vb va : Double)
    (hr : extract_double r = .ok vr) (hg : extract_double g = .ok vg)
    (hb : extract_double b = .ok vb) (ha : extract_double a = .ok va) :
    setColorComponents color [r, g, b, a] = (.ok (), Color.mk vr vg vb va) := by
  simp [setColorComponents, len, tuple.getitem, Except.bind, hr, hg, hb, ha]

/-- C6 as stated fails: writing the 4-tuple of ints `(1, 0, -3, 2^53 + 1)`
succeeds, and the tuple read back is `(1.0, 0.0, -3.0, 2^53)`, whose last
element is not the number written. -/
theorem setColorComponents_rounds_large_int :
    setColorComponents (Color.mk 0 0 0 1)
        [.PyInt (CLong.mk 1 (by decide) (by decide)),
         .PyInt (CLong.mk 0 (by decide) (by decide)),
         .PyInt (CLong.mk (-3) (by decide) (by decide)),
         .PyInt (CLong.mk (2 ^ 53 + 1) (by decide) (by decide))] =
      (.ok (), Color.mk 1 0 (-3) (2 ^ 53)) ∧
    getColorComponents (Color.mk 1 0 (-3) (2 ^ 53)) =
      [.PyFloat 1, .PyFloat 0, .PyFloat (-3), .PyFloat (2 ^ 53)] ∧
    (PyObject.PyFloat (2 ^ 53)).number? ≠
      (PyObject.PyInt (CLong.mk (2 ^ 53 + 1) (by decide) (by decide))).number? := by
  have h1 : Double.ofLong 1 = 1 := by simpa using Double.ofLong_exact 1 (by norm_num)
  have h0 : Double.ofLong 0 = 0 := by simpa using Double.ofLong_exact 0 (by norm_num)
  have h3 : Double.ofLong (-3) = -3 := by simpa using Double.ofLong_exact (-3) (by norm_num)
  have hbig : Double.ofLong (2 ^ 53 + 1) = 2 ^ 53 := by
    have hc : (((2 ^ 53 + 1 : ℤ)) : ℚ) = 2 ^ 53 + 1 := by norm_num
    unfold Double.ofLong
    rw [hc]
    exact Double.round_two_pow_53_succ
  refine ⟨?_, rfl, ?_⟩
  · exact setColorComponents_ok _ _ _ _ _ 1 0 (-3) (2 ^ 53)
      (congrArg Except.ok h1) (congrArg Except.ok h0)
      (congrArg Except.ok h3) (congrArg Except.ok hbig)
  · show ¬ (some ((2 : ℚ) ^ 53) = some (((2 ^ 53 + 1 : ℤ) : ℚ)))
    norm_num

/-- C6 as amended: for every Color and every 4-tuple `(r, g, b, a)` of numbers
that a double holds exactly (floats, and the integers that are their own
nearest double, among them every integer of magnitude at most 2^53),
`setColorComponents` succeeds and `getColorComponents` then returns a 4-tuple
of floats denoting the numbers `r`, `g`, `b`, `a` in that order; a tuple of
floats is read back as it was written. -/
theorem getColorComponents_setColorComponents (color : Color) (r g b a : PyObject)
    (hr : r.exact) (hg : g.exact) (hb : b.exact) (ha : a.exact) :
    (setColorComponents color [r, g, b, a]).1 = .ok () ∧
    (getColorComponents (setColorComponents color [r, g, b, a]).2).map PyObject.number? =
      [r, g, b, a].map PyObject.number? ∧
    (∀ o ∈ getColorComponents (setColorComponents color [r, g, b, a]).2,
      PyFloat_Check o = true) ∧
    ((∀ o ∈ [r, g, b, a], PyFloat_Check o = true) →
      getColorComponents (setColorComponents color [r, g, b, a]).2 = [r, g, b, a]) ∧
    (∀ n : CLong, |n.val| ≤ 2 ^ 53 → (PyObject.PyInt n).exact) ∧
    (∀ n : ℤ, |n| ≤ 2 ^ 53 → (PyObject.PyLong n).exact) := by
  obtain ⟨vr, hvr, hnr⟩ := extract_double_of_exact r hr
  obtain ⟨vg, hvg, hng⟩ := extract_double_of_exact g hg
  obtain ⟨vb, hvb, hnb⟩ := extract_double_of_exact b hb
  obtain ⟨va, hva, hna⟩ := extract_double_of_exact a ha
  have hset := setColorComponents_ok color r g b a vr vg vb va hvr hvg hvb hva
  refine ⟨by rw [hset], ?_, ?_, ?_, PyObject.exact_int_of_abs_le,
    PyObject.exact_long_of_abs_le⟩
  · rw [hset]
    simp only [List.map, hnr, hng, hnb, hna]
    rfl
  · rw [hset]
    intro o ho
    simp only [getColorComponents, List.mem_cons, List.mem_singleton, List.not_mem_nil,
      or_false] at ho
    rcases ho with rfl | rfl | rfl | rfl <;> rfl
  · intro hall
    rw [hset]
    have key : ∀ (o : PyObject) (v : ℚ), PyFloat_Check o = true → o.number? = some v →
        PyObject.PyFloat v = o := by
      intro o v hf hn
      cases o <;> simp [PyFloat_Check, PyObject.number?] at hf hn ⊢
      exact hn.symm
    simp only [getColorComponents]
    rw [key r vr (hall r (by simp)) hnr, key g vg (hall g (by simp)) hng,
      key b vb (hall b (by simp)) hnb, key a va (hall a (by simp)) hna]

/-- Witness of C6 as amended on the tuple `(1, 0.5, -3, 1.0)` of ints and
floats: the tuple read back is `(1.0, 0.5, -3.0, 1.0)`. -/
theorem getColorComponents_setColorComponents_witness :
    (setColorComponents (Color.mk 0 0 0 1)
        [.PyInt (CLong.mk 1 (by decide) (by decide)), .PyFloat (1 / 2),
         .PyInt (CLong.mk (-3) (by decide) (by decide)), .PyFloat 1]).1 = .ok () ∧
    (getColorComponents (setColorComponents (Color.mk 0 0 0 1)
        [.PyInt (CLong.mk 1 (by decide) (by decide)), .PyFloat (1 / 2),
         .PyInt (CLong.mk (-3) (by decide) (by decide)), .PyFloat 1]).2).map
        PyObject.number? = [some 1, some (1 / 2), some (-3), some 1] := by
  have h := getColorComponents_setColorComponents (Color.mk 0 0 0 1)
    (.PyInt (CLong.mk 1 (by decide) (by decide))) (.PyFloat (1 / 2))
    (.PyInt (CLong.mk (-3) (by decide) (by decide))) (.PyFloat 1)
    (PyObject.exact_int_of_abs_le _ (by norm_num)) trivial
    (PyObject.exact_int_of_abs_le _ (by norm_num)) trivial
  refine ⟨h.1, ?_⟩
  rw [h.2.1]
  simp [PyObject.number?]

/-- C7 (the code at the failing input): on the Color (0, 0, 0, 1) and the
4-tuple `(0.5, "x", 0.25, 0.75)`, whose element 1 is not convertible to a
double, `setColorComponents` throws a TypeError after `components[0]` has
already been overwritten with 0.5: the Color is left modified. -/
theorem setColorComponents_half_written :
    setColorComponents (Color.mk 0 0 0 1)
        [.PyFloat (1 / 2), .PyString "x", .PyFloat (1 / 4), .PyFloat (3 / 4)] =
      (.error .TypeError, Color.mk (1 / 2) 0 0 1) ∧
    Color.mk (1 / 2) 0 0 1 ≠ Color.mk 0 0 0 1 := by
  constructor
  · rfl
  · simp


/-- On tuples and lists `convertible` returns null for every length other than
2 and for every pair holding an element that is neither a float nor an int. -/
theorem convertible_rejects_tuple_list (items : List PyObject) (seq : PyObject)
    (hseq : seq = .PyTuple items ∨ seq = .PyList items)
    (hbad : items.length ≠ 2 ∨
      ∃ o ∈ items, (PyFloat_Check o || PyInt_Check o) = false) :
    Vector_from_python.convertible seq = .ok none ∧
    Vector_from_python seq = .ok (.error .TypeError) := by
  have key : Vector_from_python.convertible seq = .ok none := by
    rcases hseq with rfl | rfl
    · match items, hbad with
      | [], _ => simp [Vector_from_python.convertible, PyTuple_Check, PyTuple_Size]
      | [_], _ => simp [Vector_from_python.convertible, PyTuple_Check, PyTuple_Size]
      | _ :: _ :: _ :: _, _ =>
        simp [Vector_from_python.convertible, PyTuple_Check, PyTuple_Size]
        omega
      | [a, b], hbad =>
        rcases hbad with h | ⟨o, ho, hn⟩
        · simp at h
        · simp only [List.mem_cons, List.mem_singleton, List.not_mem_nil, or_false] at ho
          rcases ho with rfl | rfl
          · simp [Vector_from_python.convertible, PyTuple_Check, PyTuple_Size,
              PyTuple_GetItem, hn]
          · by_cases ha : (PyFloat_Check a || PyInt_Check a) = true
            · simp [Vector_from_python.convertible, PyTuple_Check, PyTuple_Size,
                PyTuple_GetItem, hn, ha]
            · simp [Vector_from_python.convertible, PyTuple_Check, PyTuple_Size,
                PyTuple_GetItem, ha]
    · match items, hbad with
      | [], _ => simp [Vector_from_python.convertible, PyTuple_Check, PyObject_Length]
      | [_], _ => simp [Vector_from_python.convertible, PyTuple_Check, PyObject_Length]
      | _ :: _ :: _ :: _, _ =>
        simp [Vector_from_python.convertible, PyTuple_Check, PyObject_Length]
        omega
      | [a, b], hbad =>
        rcases hbad with h | ⟨o, ho, hn⟩
        · simp at h
        · simp only [List.mem_cons, List.mem_singleton, List.not_mem_nil, or_false] at ho
          rcases ho with rfl | rfl
          · simp [Vector_from_python.convertible, PyTuple_Check, PyObject_Length,
              PyList_GetItem, hn]
          · by_cases ha : (PyFloat_Check a || PyInt_Check a) = true
            · simp [Vector_from_python.convertible, PyTuple_Check, PyObject_Length,
                PyList_GetItem, hn, ha]
            · simp [Vector_from_python.convertible, PyTuple_Check, PyObject_Length,
                PyList_GetItem, ha]
  exact ⟨key, by simp [Vector_from_python, key]⟩

/-- C1 as stated fails, twice. The integer 2^63 is a `long`, which
`PyInt_Check` does not accept: the tuple `(2^63, 0.5)` is rejected with a
TypeError. The `int` 2^53 + 1 is accepted, and the tuple `(2^53 + 1, 0.5)`
comes back as `(2^53, 0.5)`, whose first coordinate is another number. -/
theorem Vector_from_python_long_and_large_int :
    (PyObject.PyLong (2 ^ 63)).number? = some (2 ^ 63) ∧
    Vector_from_python (.PyTuple [.PyLong (2 ^ 63), .PyFloat (1 / 2)]) =
      .ok (.error .TypeError) ∧
    (Vector_from_python (.PyTuple
        [.PyInt (CLong.mk (2 ^ 53 + 1) (by decide) (by decide)), .PyFloat (1 / 2)])).map
        (fun r => r.map Vector_to_python_tuple.convert) =
      .ok (.ok (.PyTuple [.PyFloat (2 ^ 53), .PyFloat (1 / 2)])) ∧
    (PyObject.PyFloat (2 ^ 53)).number? ≠
      (PyObject.PyInt (CLong.mk (2 ^ 53 + 1) (by decide) (by decide))).number? := by
  have hbig : Double.ofLong (2 ^ 53 + 1) = 2 ^ 53 := by
    have hc : (((2 ^ 53 + 1 : ℤ)) : ℚ) = 2 ^ 53 + 1 := by norm_num
    unfold Double.ofLong
    rw [hc]
    exact Double.round_two_pow_53_succ
  refine ⟨?_, ?_, ?_, ?_⟩
  · show some (((2 ^ 63 : ℤ) : ℚ)) = some (2 ^ 63)
    norm_num
  · simp [Vector_from_python, Vector_from_python.convertible, PyTuple_Check, PyTuple_Size,
      PyTuple_GetItem, PyFloat_Check, PyInt_Check]
  · have hv : Vector_from_python (.PyTuple
        [.PyInt (CLong.mk (2 ^ 53 + 1) (by decide) (by decide)), .PyFloat (1 / 2)]) =
        .ok (.ok (Vector.mk (Double.ofLong (2 ^ 53 + 1)) (1 / 2))) := by
      simp only [Vector_from_python, Vector_from_python.convertible,
        Vector_from_python.construct, PyTuple_Check, PyTuple_Size, PyTuple_GetItem,
        PyFloat_Check, PyInt_Check, PyFloat_AsDouble]
      rfl
    rw [hv, hbig]
    rfl
  · show ¬ (some ((2 : ℚ) ^ 53) = some (((2 ^ 53 + 1 : ℤ) : ℚ)))
    norm_num

/-- C1 as amended: for every pair `(x, y)` of objects that are each an `int`
(the integers `PyInt_Check` accepts, held in a C `long`) or a float, and for
the 2-tuple as for the 2-element list holding them, `convertible` accepts the
sequence, the conversion constructs `Vector(vx, vy)` and `Vector_to_python_tuple`
turns that Vector into the 2-tuple of floats `(vx, vy)`, where the coordinate of
a float is that float and the coordinate of an int is the double nearest to
it: the very number whenever a double holds it exactly, as it does every int of
magnitude at most 2^53. -/
theorem Vector_script_native_script (x y : PyObject)
    (hx : (PyFloat_Check x || PyInt_Check x) = true)
    (hy : (PyFloat_Check y || PyInt_Check y) = true)
    (seq : PyObject) (hseq : seq = .PyTuple [x, y] ∨ seq = .PyList [x, y]) :
    Vector_from_python.convertible seq = .ok (some seq) ∧
    ∃ vx vy : Double,
      Vector_from_python seq = .ok (.ok (Vector.mk vx vy)) ∧
      (Vector_from_python seq).map (fun r => r.map Vector_to_python_tuple.convert) =
        .ok (.ok (.PyTuple [.PyFloat vx, .PyFloat vy])) ∧
      (∀ v, x = .PyFloat v → vx = v) ∧
      (∀ v, y = .PyFloat v → vy = v) ∧
      (∀ n, x = .PyInt n → vx = Double.round n.val ∧ (|n.val| ≤ 2 ^ 53 → vx = n.val)) ∧
      (∀ n, y = .PyInt n → vy = Double.round n.val ∧ (|n.val| ≤ 2 ^ 53 → vy = n.val)) ∧
      (x.exact → x.number? = some vx) ∧
      (y.exact → y.number? = some vy) := by
  have hc : Vector_from_python.convertible seq = .ok (some seq) := by
    rcases hseq with rfl | rfl
    · simp [Vector_from_python.convertible, PyTuple_Check, PyTuple_Size, PyTuple_GetItem,
        hx, hy]
    · simp [Vector_from_python.convertible, PyTuple_Check, PyObject_Length, PyList_GetItem,
        hx, hy]
  have hv : Vector_from_python seq =
      .ok (.ok (Vector.mk (PyFloat_AsDouble (some x)) (PyFloat_AsDouble (some y)))) := by
    rcases hseq with rfl | rfl
    · simp [Vector_from_python, hc, Vector_from_python.construct, PyTuple_Check,
        PyTuple_GetItem]
    · simp [Vector_from_python, hc, Vector_from_python.construct, PyTuple_Check,
        PyList_GetItem]
  have hexact : ∀ o : PyObject, (PyFloat_Check o || PyInt_Check o) = true → o.exact →
      o.number? = some (PyFloat_AsDouble (some o)) := by
    intro o ho he
    cases o <;> simp [PyFloat_Check, PyInt_Check] at ho
    · have h1 : Double.round _ = _ := he
      simp [PyObject.number?, PyFloat_AsDouble, Double.ofLong, h1]
    · rfl
  refine ⟨hc, PyFloat_AsDouble (some x), PyFloat_AsDouble (some y), hv, ?_, ?_, ?_, ?_, ?_,
    hexact x hx, hexact y hy⟩
  · rw [hv]; rfl
  · rintro v rfl; rfl
  · rintro v rfl; rfl
  · rintro n rfl; exact ⟨rfl, Double.ofLong_exact n.val⟩
  · rintro n rfl; exact ⟨rfl, Double.ofLong_exact n.val⟩

/-- Witness of C1 as amended on the list `[3, 0.5]`: it comes back as the
tuple `(3.0, 0.5)`. -/
theorem Vector_script_native_script_witness :
    Vector_from_python.convertible
        (.PyList [.PyInt (CLong.mk 3 (by decide) (by decide)), .PyFloat (1 / 2)]) =
      .ok (some (.PyList [.PyInt (CLong.mk 3 (by decide) (by decide)), .PyFloat (1 / 2)])) ∧
    (Vector_from_python
        (.PyList [.PyInt (CLong.mk 3 (by decide) (by decide)), .PyFloat (1 / 2)])).map
        (fun r => r.map Vector_to_python_tuple.convert) =
      .ok (.ok (.PyTuple [.PyFloat 3, .PyFloat (1 / 2)])) := by
  obtain ⟨hc, vx, vy, _, ht, _, hfy, hix, _, _, _⟩ :=
    Vector_script_native_script (.PyInt (CLong.mk 3 (by decide) (by decide)))
      (.PyFloat (1 / 2)) rfl rfl
      (.PyList [.PyInt (CLong.mk 3 (by decide) (by decide)), .PyFloat (1 / 2)]) (Or.inr rfl)
  have e1 : vx = 3 := by
    have h := (hix _ rfl).2 (by norm_num)
    simpa using h
  have e2 : vy = 1 / 2 := hfy _ rfl
  subst e1 e2
  exact ⟨hc, ht⟩

/-- Native to script and back: the tuple `Vector_to_python_tuple` produces is
accepted by `Vector_from_python` and converts to the Vector it came from. -/
theorem Vector_native_script_native (value : Vector) :
    Vector_from_python (Vector_to_python_tuple.convert value) = .ok (.ok value) := by
  simp [Vector_from_python, Vector_from_python.convertible, Vector_from_python.construct,
    Vector_to_python_tuple.convert, PyTuple_Check, PyTuple_Size, PyTuple_GetItem,
    PyFloat_Check, PyFloat_AsDouble]

/-- C2 (the code at the failing input): the 2-character string `"ab"` is a
sequence of length 2 whose elements are not numbers. It is not a tuple, so
`convertible` takes the non-tuple branch, `PyObject_Length` is 2,
`PyList_GetItem` returns null on an object that is not a list and
`assert (item0)` fails: `convertible` does not return null. -/
theorem convertible_string_assertion :
    PyTuple_Check (.PyString "ab") = false ∧
    PyObject_Length (.PyString "ab") = 2 ∧
    PyList_GetItem (.PyString "ab") 0 = none ∧
    Vector_from_python.convertible (.PyString "ab") = .error (.assertion "item0") ∧
    Vector_from_python.convertible (.PyString "ab") ≠ .ok none := by
  have hl : PyObject_Length (.PyString "ab") = 2 := by decide
  refine ⟨rfl, hl, rfl, ?_, ?_⟩
  · simp [Vector_from_python.convertible, PyTuple_Check, hl, PyList_GetItem]
  · simp [Vector_from_python.convertible, PyTuple_Check, hl, PyList_GetItem]


/-- C3: for every robot state, tick duration and override table,
`EPuckWrap::controlStep` is the native `EPuck::controlStep` applied to the
state the script override returns when the script class defines `controlStep`,
and applied to the entry state when it does not. With both routines
instrumented to log their calls, the log of one tick is script then native
(each once) in the first case and native alone in the second; over two
ticks the override of the second tick runs on the state the native update of
the first tick left. -/
theorem EPuckWrap_controlStep_dispatch {S : Type} (EPuck_controlStep : Double → S → S)
    (get_override : String → Option (Double → S → S)) (dt dt2 : Double) (s : S) :
    EPuckWrap.controlStep EPuck_controlStep get_override dt s =
      (match get_override "controlStep" with
       | some f => EPuck_controlStep dt (f dt s)
       | none => EPuck_controlStep dt s) ∧
    EPuckWrap.controlStep (fun d => logged (.native d) (EPuck_controlStep d))
        (fun name => (get_override name).map (fun f d => logged (.script d) (f d)))
        dt (s, []) =
      (match get_override "controlStep" with
       | some f => (EPuck_controlStep dt (f dt s), [.script dt, .native dt])
       | none => (EPuck_controlStep dt s, [.native dt])) ∧
    EPuckWrap.controlStep EPuck_controlStep get_override dt2
        (EPuckWrap.controlStep EPuck_controlStep get_override dt s) =
      (match get_override "controlStep" with
       | some f => EPuck_controlStep dt2 (f dt2 (EPuck_controlStep dt (f dt s)))
       | none => EPuck_controlStep dt2 (EPuck_controlStep dt s)) := by
  cases h : get_override "controlStep" <;> simp [EPuckWrap.controlStep, h, logged]

/-- The loop of `run` entered with `k` iterations left performs `k` steps. -/
theorem run_loop_iterate {W : Type} (World_step : Double → ℕ → W → W) (k : ℕ) :
    ∀ (steps i : ℕ) (world : W), steps = i + k →
      run.loop World_step steps i world = (World_step (Double.div 1 30) 3)^[k] world := by
  induction k with
  | zero =>
    intro steps i world h
    rw [run.loop, if_neg (by omega)]
    rfl
  | succ k ih =>
    intro steps i world h
    rw [run.loop, if_pos (by omega), ih steps (i + 1) _ (by omega)]
    rfl

/-- C8: for every world state and every step count `n`, `run(world, n)` is the
`n`-fold iteration of `World::step` with `dt = 1./30.` and
`physicsOversampling = 3` from that state; `run(world, 0)` is the state
unchanged. -/
theorem run_eq_iterate {W : Type} (World_step : Double → ℕ → W → W) (world : W) (n : ℕ) :
    run World_step world n = (World_step (Double.div 1 30) 3)^[n] world ∧
    run World_step world 0 = world := by
  constructor
  · exact run_loop_iterate World_step n n 0 world (by omega)
  · exact run_loop_iterate World_step 0 0 0 world rfl

/-- C9: for every camera input the constructor of `PythonViewer` stores
`pos = (-camPos.x, -camPos.y)`, `yaw = -camYaw`, `pitch = -camPitch` and
`altitude = camAltitude`, whatever the base-class constructor had set; with all
four camera arguments of `runInViewer` left at their defaults every one of these
values is zero. -/
theorem PythonViewer_camera {W : Type} (base : ViewerWidget) (camPos : Vector)
    (camAltitude camYaw camPitch : Double) (ViewerWidget_new : W → ViewerWidget) (world : W) :
    (PythonViewer base camPos camAltitude camYaw camPitch).pos =
      CameraPos.mk (-camPos.x) (-camPos.y) ∧
    (PythonViewer base camPos camAltitude camYaw camPitch).yaw = -camYaw ∧
    (PythonViewer base camPos camAltitude camYaw camPitch).pitch = -camPitch ∧
    (PythonViewer base camPos camAltitude camYaw camPitch).altitude = camAltitude ∧
    (runInViewer ViewerWidget_new world none none none none).pos = CameraPos.mk 0 0 ∧
    (runInViewer ViewerWidget_new world none none none none).altitude = 0 ∧
    (runInViewer ViewerWidget_new world none none none none).yaw = 0 ∧
    (runInViewer ViewerWidget_new world none none none none).pitch = 0 := by
  refine ⟨rfl, rfl, rfl, rfl, ?_, rfl, ?_, ?_⟩ <;>
    simp [runInViewer, PythonViewer, CameraPos.setX, CameraPos.setY]

/-- Membership in one round of life support. -/
theorem mem_keepAlive (links : List (Handle × Handle)) (live : List Handle) (x : Handle) :
    x ∈ keepAlive links live ↔ x ∈ live ∨ ∃ n ∈ live, (n, x) ∈ links := by
  simp only [keepAlive, List.mem_append, List.mem_map, List.mem_filter, decide_eq_true_eq]
  constructor
  · rintro (h | ⟨⟨n, y⟩, ⟨hl, hn⟩, rfl⟩)
    · exact Or.inl h
    · exact Or.inr ⟨n, hn, hl⟩
  · rintro (h | ⟨n, hn, hl⟩)
    · exact Or.inl h
    · exact Or.inr ⟨(n, x), ⟨hl, hn⟩, rfl⟩

/-- A test that holds on one more link than another counts strictly more links. -/
theorem countP_lt_of_new (links : List (Handle × Handle)) (p q : Handle × Handle → Bool)
    (hpq : ∀ l ∈ links, p l = true → q l = true)
    (hnew : ∃ l ∈ links, q l = true ∧ p l = false) :
    links.countP p < links.countP q := by
  induction links with
  | nil => simp at hnew
  | cons a t ih =>
    have hmono : t.countP p ≤ t.countP q :=
      List.countP_mono_left (fun l hl => hpq l (List.mem_cons_of_mem _ hl))
    obtain ⟨l, hl, hq, hp⟩ := hnew
    rcases List.mem_cons.mp hl with rfl | hlt
    · rw [List.countP_cons_of_pos _ _ hq, List.countP_cons_of_neg _ _ (by simp [hp])]
      omega
    · have ih2 := ih (fun l hl => hpq l (List.mem_cons_of_mem _ hl)) ⟨l, hlt, hq, hp⟩
      by_cases hpa : p a = true
      · rw [List.countP_cons_of_pos _ _ hpa,
          List.countP_cons_of_pos _ _ (hpq a (List.mem_cons_self _ _) hpa)]
        omega
      · rw [List.countP_cons_of_neg _ _ hpa]
        by_cases hqa : q a = true
        · rw [List.countP_cons_of_pos _ _ hqa]; omega
        · rw [List.countP_cons_of_neg _ _ hqa]; omega

/-- After `k` rounds either a further round adds nothing, or more than `k`
links have a living nurse. -/
theorem keepAlive_closed_or (links : List (Handle × Handle)) (roots : List Handle) (k : ℕ) :
    (∀ x ∈ keepAlive links ((keepAlive links)^[k] roots), x ∈ (keepAlive links)^[k] roots) ∨
    k < links.countP (fun l => decide (l.1 ∈ (keepAlive links)^[k] roots)) := by
  induction k with
  | zero =>
    by_cases hc : ∀ x ∈ keepAlive links roots, x ∈ roots
    · exact Or.inl hc
    · right
      push_neg at hc
      obtain ⟨x, hx, hnx⟩ := hc
      rcases (mem_keepAlive _ _ _).1 hx with h | ⟨n, hn, hl⟩
      · exact absurd h hnx
      · exact List.countP_pos_iff.2 ⟨(n, x), hl, by simpa using hn⟩
  | succ k ih =>
    rw [Function.iterate_succ_apply']
    set L := (keepAlive links)^[k] roots with hL
    rcases ih with hclosed | hlt
    · left
      intro x hx
      rcases (mem_keepAlive _ _ _).1 hx with h | ⟨n, hn, hl⟩
      · exact h
      · exact (mem_keepAlive _ _ _).2 (Or.inr ⟨n, hclosed n hn, hl⟩)
    · by_cases hc : ∀ x ∈ keepAlive links (keepAlive links L), x ∈ keepAlive links L
      · exact Or.inl hc
      · right
        push_neg at hc
        obtain ⟨x, hx, hnx⟩ := hc
        rcases (mem_keepAlive _ _ _).1 hx with h | ⟨n, hn, hl⟩
        · exact absurd h hnx
        · have hnL : n ∉ L := fun hnL => hnx ((mem_keepAlive _ _ _).2 (Or.inr ⟨n, hnL, hl⟩))
          have := countP_lt_of_new links (fun l => decide (l.1 ∈ L))
            (fun l => decide (l.1 ∈ keepAlive links L))
            (fun l _ hp => by
              simp only [decide_eq_true_eq] at hp ⊢
              exact (mem_keepAlive _ _ _).2 (Or.inl hp))
            ⟨(n, x), hl, by simpa using hn, by simpa using hnL⟩
          omega

/-- Every round of life support keeps what was alive. -/
theorem subset_iterate_keepAlive (links : List (Handle × Handle)) (roots : List Handle)
    (k : ℕ) (x : Handle) (hx : x ∈ roots) : x ∈ (keepAlive links)^[k] roots := by
  induction k with
  | zero => exact hx
  | succ k ih =>
    rw [Function.iterate_succ_apply']
    exact (mem_keepAlive _ _ _).2 (Or.inl ih)

/-- An object held by a script variable is alive. -/
theorem Alive.root (h : Interp) (x : Handle) (hx : x ∈ h.roots) : Alive h x :=
  subset_iterate_keepAlive h.links h.roots h.links.length x hx

/-- The patient of a living nurse is alive. -/
theorem Alive.kept (h : Interp) (n x : Handle) (hl : (n, x) ∈ h.links) (hn : Alive h n) :
    Alive h x := by
  unfold Alive Interp.live at *
  rcases keepAlive_closed_or h.links h.roots h.links.length with hc | hlt
  · exact hc x ((mem_keepAlive _ _ _).2 (Or.inr ⟨n, hn, hl⟩))
  · have hle := List.countP_le_length
      (fun l : Handle × Handle => decide (l.1 ∈ (keepAlive h.links)^[h.links.length] h.roots))
      (l := h.links)
    omega

/-- C4 as stated fails: a script creates a World (handle 0) and an object
(handle 1), calls `addObject`, then drops its variable for the World. The
object handle is still held by the script, yet nothing keeps the World alive. -/
theorem World_addObject_world_not_kept :
    ¬ (∀ (h : Interp) (world obj : Handle) (roots : List Handle),
        obj ∈ roots → Alive { World.addObject world obj h with roots := roots } world) := by
  intro hall
  have h := hall (Interp.mk [0, 1] []) 0 1 [1] (by simp)
  revert h
  decide

/-- C4 as amended: after `World.addObject(world, obj)`, whichever handles the
script holds later on, the object is alive whenever the World is alive: the
link goes from the World to the object only. -/
theorem World_addObject_keeps_object (h : Interp) (world obj : Handle) (roots : List Handle)
    (hw : Alive { World.addObject world obj h with roots := roots } world) :
    Alive { World.addObject world obj h with roots := roots } obj := by
  have hl : (World.addObject world obj h).links = (world, obj) :: h.links := by
    simp [World.addObject, with_custodian_and_ward]
  exact Alive.kept _ world obj (by simp [hl]) hw

/-- Witness of C4 as amended: the script keeps only its variable for the World
(handle 0); the object (handle 1) stays alive. -/
theorem World_addObject_keeps_object_witness :
    Alive { World.addObject 0 1 (Interp.mk [0, 1] []) with roots := [0] } 0 ∧
    Alive { World.addObject 0 1 (Interp.mk [0, 1] []) with roots := [0] } 1 :=
  ⟨by decide, World_addObject_keeps_object (Interp.mk [0, 1] []) 0 1 [0] (by decide)⟩

/-- C10 (the code at the failing input): the script-level names of the class
registrations are not pairwise distinct, `"PhysicalObject"` being given both to
the native `PhysicalObject` and to the native `Robot`; after the module has
initialised, the name `"PhysicalObject"` is bound to the class of `Robot`. -/
theorem pyenki_PhysicalObject_name_clash :
    ¬ (pyenki.classes.map Prod.snd).Nodup ∧
    ("PhysicalObject", "PhysicalObject") ∈ pyenki.classes ∧
    ("Robot", "PhysicalObject") ∈ pyenki.classes ∧
    getattr pyenki.module "PhysicalObject" = some "Robot" := by
  refine ⟨by decide, by decide, by decide, by decide⟩

end Enki
